import Mathlib

/-!
Verification of the integrity-and-archival subsystem of the eigenlayer
repository (package checking, backup tar decoding, backup naming).

The Go source under `internal/data/backup.go` is embedded shallowly:
pure Go functions become Lean functions, the injected `afero.Fs` storage
capability becomes an explicit lookup function, machine integers become
`Nat`/`Int` with explicit bounds where Go's `int64` range matters, and
fallible Go functions return `Except`/`Option`.
-/

namespace EigenData

/-! ## Decimal digits -/

/-- The decimal digit character for `n < 10` (used when printing numbers). -/
def digitChar (n : Nat) : Char :=
  match n with
  | 0 => '0' | 1 => '1' | 2 => '2' | 3 => '3' | 4 => '4'
  | 5 => '5' | 6 => '6' | 7 => '7' | 8 => '8' | _ => '9'

/-- Decimal digits of `n`, least-significant first. -/
def natToDecRev (n : Nat) : List Char :=
  if h : n < 10 then [digitChar n]
  else digitChar (n % 10) :: natToDecRev (n / 10)
decreasing_by exact Nat.div_lt_self (by omega) (by omega)

/-- Standard decimal rendering of a natural number, as Go's `%d` prints it. -/
def natToDec (n : Nat) : String := ⟨(natToDecRev n).reverse⟩

/-- Decimal rendering of an `int64`, as Go's `%d` prints it. -/
def intToDec (i : Int) : String :=
  if i < 0 then "-" ++ natToDec i.natAbs else natToDec i.natAbs

/-- Value of a most-significant-first digit string, accumulated the way
`strconv.ParseInt` accumulates it. -/
def decValM (l : List Char) : Nat :=
  l.foldl (fun acc c => 10 * acc + (c.toNat - 48)) 0

/-- Largest value of Go's `int64` (`strconv.ParseInt` with bitSize 64
rejects anything larger). -/
def maxInt64 : Nat := 9223372036854775807

/-! ## SHA-1 (the digest `crypto/sha1` computes), over byte lists -/

/-- 32-bit left rotation on a word represented as a `Nat` below `2 ^ 32`. -/
def rotl32 (x n : Nat) : Nat :=
  (((x % 4294967296) <<< n) ||| ((x % 4294967296) >>> (32 - n))) % 4294967296

/-- SHA-1 message padding: append `0x80`, zero bytes to 56 mod 64, then the
bit length as 8 big-endian bytes. -/
def sha1pad (msg : List Nat) : List Nat :=
  let ml := 8 * msg.length
  let zeros := (120 - ((msg.length + 1) % 64)) % 64
  msg ++ 128 :: List.replicate zeros 0 ++
    [(ml >>> 56) % 256, (ml >>> 48) % 256, (ml >>> 40) % 256, (ml >>> 32) % 256,
     (ml >>> 24) % 256, (ml >>> 16) % 256, (ml >>> 8) % 256, ml % 256]

/-- Group bytes into big-endian 32-bit words. -/
def bytesToWords : List Nat → List Nat
  | b0 :: b1 :: b2 :: b3 :: rest =>
    (((b0 <<< 24) + (b1 <<< 16) + (b2 <<< 8) + b3) % 4294967296) :: bytesToWords rest
  | _ => []

/-- Extend the 16 message words by `i` further schedule words. -/
def sha1Expand (w : List Nat) (i : Nat) : List Nat :=
  match i with
  | 0 => w
  | k + 1 =>
    sha1Expand
      (w ++ [rotl32 ((w.getD (w.length - 3) 0) ^^^ (w.getD (w.length - 8) 0) ^^^
                     (w.getD (w.length - 14) 0) ^^^ (w.getD (w.length - 16) 0)) 1]) k

/-- One SHA-1 round: `st` is `(a, b, c, d, e)` and `iw` the round index with
its schedule word. -/
def sha1Round (st : Nat × Nat × Nat × Nat × Nat) (iw : Nat × Nat) :
    Nat × Nat × Nat × Nat × Nat :=
  let (a, b, c, d, e) := st
  let (i, w) := iw
  let f :=
    if i < 20 then (b &&& c) ||| ((b ^^^ 4294967295) &&& d)
    else if i < 40 then b ^^^ c ^^^ d
    else if i < 60 then (b &&& c) ||| (b &&& d) ||| (c &&& d)
    else b ^^^ c ^^^ d
  let k :=
    if i < 20 then 1518500249
    else if i < 40 then 1859775393
    else if i < 60 then 2400959708
    else 3395469782
  let temp := (rotl32 a 5 + f + e + k + w) % 4294967296
  (temp, a, rotl32 b 30, c, d)

/-- Process one 64-byte chunk, updating the five hash words. -/
def sha1Block (h : Nat × Nat × Nat × Nat × Nat) (block : List Nat) :
    Nat × Nat × Nat × Nat × Nat :=
  let w := sha1Expand (bytesToWords block) 64
  let (a, b, c, d, e) := ((List.range 80).zip w).foldl sha1Round h
  ((h.1 + a) % 4294967296, (h.2.1 + b) % 4294967296, (h.2.2.1 + c) % 4294967296,
   (h.2.2.2.1 + d) % 4294967296, (h.2.2.2.2 + e) % 4294967296)

/-- Split a byte list into chunks of 64. -/
def chunks64 (l : List Nat) : List (List Nat) :=
  if h : l = [] then [] else l.take 64 :: chunks64 (l.drop 64)
termination_by l.length
decreasing_by
  have h1 : (l.drop 64).length = l.length - 64 := List.length_drop 64 l
  have h2 : 0 < l.length := List.length_pos.mpr h
  omega

/-- The five 32-bit hash words of the SHA-1 digest of a message. -/
def sha1Words (msg : List Nat) : Nat × Nat × Nat × Nat × Nat :=
  (chunks64 (sha1pad msg)).foldl sha1Block
    (1732584193, 4023233417, 2562383102, 271733878, 3285377520)

/-- Big-endian bytes of a 32-bit word. -/
def word32ToBytes (x : Nat) : List Nat :=
  [(x >>> 24) % 256, (x >>> 16) % 256, (x >>> 8) % 256, x % 256]

/-- The 20-byte SHA-1 digest of a byte list, as `sha1.Sum` returns it. -/
def sha1Bytes (msg : List Nat) : List Nat :=
  word32ToBytes (sha1Words msg).1 ++ word32ToBytes (sha1Words msg).2.1 ++
  word32ToBytes (sha1Words msg).2.2.1 ++ word32ToBytes (sha1Words msg).2.2.2.1 ++
  word32ToBytes (sha1Words msg).2.2.2.2

/-- Lower-case hexadecimal digit character for `n < 16`. -/
def hexDigitChar (n : Nat) : Char :=
  match n with
  | 0 => '0' | 1 => '1' | 2 => '2' | 3 => '3' | 4 => '4'
  | 5 => '5' | 6 => '6' | 7 => '7' | 8 => '8' | 9 => '9'
  | 10 => 'a' | 11 => 'b' | 12 => 'c' | 13 => 'd' | 14 => 'e' | _ => 'f'

/-- Lower-case hex encoding of a byte list, as `hex.EncodeToString` produces. -/
def hexEncode (bs : List Nat) : String :=
  ⟨bs.foldr (fun b acc => hexDigitChar (b / 16) :: hexDigitChar (b % 16) :: acc) []⟩

/-- UTF-8 encoding of a character, as Go's `[]byte(string)` conversion yields. -/
def utf8EncodeChar (c : Char) : List Nat :=
  let n := c.toNat
  if n < 128 then [n]
  else if n < 2048 then [192 + n / 64, 128 + n % 64]
  else if n < 65536 then [224 + n / 4096, 128 + (n / 64) % 64, 128 + n % 64]
  else [240 + n / 262144, 128 + (n / 4096) % 64, 128 + (n / 64) % 64, 128 + n % 64]

/-- The UTF-8 bytes of a string. -/
def strBytes (s : String) : List Nat := (s.data.map utf8EncodeChar).flatten

/-- Hex-encoded SHA-1 digest of a string's bytes:
`hex.EncodeToString(sha1.Sum([]byte(s))[:])`. -/
def sha1hex (s : String) : String := hexEncode (sha1Bytes (strBytes s))

/-! ## Error taxonomy

The Go code uses sentinel errors (`os.ErrNotExist`, `ErrInvalidBackupName`,
the tar accessor's not-found error, `json.Unmarshal` errors, `strconv`
errors, `PackageDirNotFoundError`, `ErrInvalidChecksum`). Each sentinel
becomes a constructor carrying the context the Go error message carries. -/

/-- Errors produced by the backup codec (`internal/data`). -/
inductive DataError where
  /-- `os.ErrNotExist` wrapped with the offending path. -/
  | notExist (path : String)
  /-- `ErrInvalidBackupName` wrapped with the offending name or path. -/
  | invalidBackupName (name : String)
  /-- The tar accessor's not-found condition for a missing entry. -/
  | tarEntryNotFound (entry : String)
  /-- A `json.Unmarshal` failure on the `data/state.json` bytes. -/
  | decodeFailed (content : String)
  /-- A `strconv.ParseInt` failure on the `timestamp` entry's bytes. -/
  | timestampNotInt (content : String)
deriving DecidableEq, Repr

/-- The spec's error taxonomy (section 7). -/
inductive ErrorKind where
  | structural
  | format
  | integrity
  | notExist
  | decode
deriving DecidableEq, Repr

/-- Classification of each backup-codec error under the spec's taxonomy:
a malformed backup name, wrong extension or non-integer timestamp is a
FormatError; a missing tar entry is a structural NotFound condition; a
`json.Unmarshal` failure is a DecodeError. -/
def DataError.kind : DataError → ErrorKind
  | .notExist _ => .notExist
  | .invalidBackupName _ => .format
  | .tarEntryNotFound _ => .structural
  | .decodeFailed _ => .decode
  | .timestampNotInt _ => .format

/-! ## The Backup value and its identity -/

/-- The `Backup` struct: the unexported cache field `id` plus the five
exported fields. `Timestamp` is the Unix-seconds value the Go code stores
as a `time.Time` (only `Timestamp.Unix()` is ever read from it). -/
structure Backup where
  id : String
  InstanceId : String
  Timestamp : Int
  Version : String
  Commit : String
  Url : String
deriving DecidableEq, Repr

/-- The string `fmt.Sprintf("%s-%d-%s-%s", b.InstanceId, b.Timestamp.Unix(),
b.Version, b.Commit)` that `Backup.Id` hashes. -/
def backupIdString (b : Backup) : String :=
  b.InstanceId ++ "-" ++ intToDec b.Timestamp ++ "-" ++ b.Version ++ "-" ++ b.Commit

/-- `Backup.Id`: if the cache field is empty, compute the hex SHA-1 digest of
the four identity fields, store it, and return it; otherwise return the
cached value. The Go method mutates its receiver, so the model returns the
updated receiver alongside the result. -/
def Backup.Id (b : Backup) : String × Backup :=
  if b.id = "" then
    ((sha1hex (backupIdString b)), { b with id := sha1hex (backupIdString b) })
  else (b.id, b)

/-- A `Backup` state reachable through the package's public surface: the
unexported cache is either still empty (as every constructor of the package
leaves it) or holds the digest computed from the current fields. -/
def Backup.reachable (b : Backup) : Prop :=
  b.id = "" ∨ b.id = sha1hex (backupIdString b)

/-! ## Instance metadata and the tar accessor

Neither the `Instance` type nor `utils.TarReadFile` is among the available
source files; both are modelled from the spec. -/

/-- Modelled from the spec: the `Instance` value persisted as `state.json`,
with the repository name and tag from which its ID is derived, plus the
`Version`, `Commit` and `URL` fields the backup copies. -/
structure Instance where
  Name : String
  Tag : String
  Version : String
  Commit : String
  URL : String
deriving DecidableEq, Repr

/-- Modelled from the spec: `Instance.ID()` is the derived identifier
`"<repository-name>-<tag>"` computed during installation. -/
def Instance.ID (i : Instance) : String := i.Name ++ "-" ++ i.Tag

/-- A tar archive, modelled as its ordered list of entries
`(entry name, entry bytes)`; entry bytes are kept as strings. -/
abbrev TarArchive : Type := List (String × String)

/-- Modelled from the spec: `utils.TarReadFile` scans entry headers
sequentially and returns the bytes of the first entry whose name equals the
target, failing with a NotFound condition if the stream is exhausted. -/
def tarReadFile (target : String) : TarArchive → Except DataError String
  | [] => .error (.tarEntryNotFound target)
  | (name, content) :: rest =>
    if name = target then .ok content else tarReadFile target rest

/-- A storage capability (the injected `afero.Fs`): resolves a path to the
tar archive stored there, or to nothing. -/
abbrev Storage : Type := String → Option TarArchive

/-! ## Path extension and integer parsing (Go standard library behavior) -/

/-- `filepath.Ext`: the suffix of the final slash-separated path element
starting at its final dot, or the empty string if that element has no dot.
`scanned` holds the characters already passed over, in original order. -/
def pathExtAux : List Char → List Char → String
  | [], _ => ""
  | c :: rest, scanned =>
    if c = '.' then ⟨'.' :: scanned⟩
    else if c = '/' then ""
    else pathExtAux rest (c :: scanned)

/-- `filepath.Ext(path)`. -/
def pathExt (path : String) : String := pathExtAux path.data.reverse []

/-- Core of `strconv.ParseInt(s, 10, 64)` after the optional sign: the
digit run must be nonempty and all decimal digits, and the value must fit
the signed 64-bit range. -/
def parseInt64Core (ds : List Char) (neg : Bool) : Option Int :=
  if ds = [] then none
  else if ds.all Char.isDigit then
    if neg then
      if decValM ds ≤ maxInt64 + 1 then some (-(decValM ds : Int)) else none
    else
      if decValM ds ≤ maxInt64 then some ((decValM ds : Int)) else none
  else none

/-- `strconv.ParseInt(s, 10, 64)`: an optional leading sign followed by a
nonempty run of decimal digits whose value fits in an `int64`. -/
def parseInt64 (s : String) : Option Int :=
  match s.data with
  | [] => none
  | c :: cs =>
    if c = '+' then parseInt64Core cs false
    else if c = '-' then parseInt64Core cs true
    else parseInt64Core (c :: cs) false

/-! ## ParseBackupName

`backupFileNameRegex` is `^(?P<instance_id>.*)-(?P<timestamp>[0-9]+)\.tar$`
compiled by Go's `regexp` package: `.` matches any character except a
newline, and the greedy `.*` makes the timestamp group the run of digits
after the last hyphen. The embedding works on the reversed character list:
strip the reversed `.tar`, take the maximal digit run, and require a hyphen
next and no newline in the remainder. -/

/-- Split a character list into its maximal leading run of decimal digits
and the rest. -/
def spanDigitsRev : List Char → List Char × List Char
  | [] => ([], [])
  | c :: cs =>
    if c.isDigit then (c :: (spanDigitsRev cs).1, (spanDigitsRev cs).2)
    else ([], c :: cs)

/-- `ParseBackupName`: match the backup file name against
`^(.*)-([0-9]+)\.tar$` and parse the digit group with
`strconv.ParseInt(_, 10, 64)`; any failure is `ErrInvalidBackupName`. -/
def ParseBackupName (backupName : String) : Except DataError (String × Int) :=
  let r := backupName.data.reverse
  if r.take 4 = ['r', 'a', 't', '.'] then
    let ds := (spanDigitsRev (r.drop 4)).1
    match (spanDigitsRev (r.drop 4)).2 with
    | [] => .error (.invalidBackupName backupName)
    | c :: ras =>
      if ds = [] then .error (.invalidBackupName backupName)
      else if c = '-' then
        if ras.contains '\n' then .error (.invalidBackupName backupName)
        else
          match parseInt64 ⟨ds.reverse⟩ with
          | some v => .ok (⟨ras.reverse⟩, v)
          | none => .error (.invalidBackupName backupName)
      else .error (.invalidBackupName backupName)
  else .error (.invalidBackupName backupName)

/-- Modelled from the spec: the backup archive file name
`"{instanceId}-{unixTimestampSeconds}.tar"` (the formatting direction is not
among the available source files). -/
def formatBackupName (instanceId : String) (t : Nat) : String :=
  instanceId ++ "-" ++ natToDec t ++ ".tar"

/-! ## BackupFromTar -/

/-- `BackupFromTar`: check the path exists, check the `.tar` extension,
extract and decode `data/state.json` into an `Instance`, extract and parse
the `timestamp` entry, and build the `Backup`. JSON decoding is the Go
standard library's; it is threaded as the explicit capability
`decodeInstance`, exactly as the storage capability is. -/
def BackupFromTar (decodeInstance : String → Option Instance)
    (fs : Storage) (src : String) : Except DataError Backup :=
  match fs src with
  | none => .error (.notExist src)
  | some tarFile =>
    if pathExt src ≠ ".tar" then .error (.invalidBackupName src)
    else
      match tarReadFile "data/state.json" tarFile with
      | .error e => .error e
      | .ok stateData =>
        match decodeInstance stateData with
        | none => .error (.decodeFailed stateData)
        | some inst =>
          match tarReadFile "timestamp" tarFile with
          | .error e => .error e
          | .ok tsData =>
            match parseInt64 tsData with
            | none => .error (.timestampNotInt tsData)
            | some ts =>
              .ok { id := "", InstanceId := inst.ID, Timestamp := ts,
                    Version := inst.Version, Commit := inst.Commit,
                    Url := inst.URL }

/-! ## Package Handler

Only `TestCheck` of the `package_handler` package is among the available
source files; `Check`, the checksum codec and their error values are
modelled from the spec (sections 4.2, 4.3 and 6), with the error shapes
taken from the test (`PackageDirNotFoundError{dirRelativePath, packagePath}`
and `ErrInvalidChecksum`). -/

/-- Modelled from the spec: the package handler's errors —
`PackageDirNotFoundError` carrying the missing relative path and the
package root, a FormatError for a malformed checksum registry line, and
`ErrInvalidChecksum` carrying the offending path. -/
inductive CheckError where
  | packageDirNotFound (dirRelativePath : String) (packagePath : String)
  | invalidChecksumLine (line : String)
  | invalidChecksum (path : String)
deriving DecidableEq, Repr

/-- Classification of each package-handler error under the spec's taxonomy. -/
def CheckError.kind : CheckError → ErrorKind
  | .packageDirNotFound _ _ => .structural
  | .invalidChecksumLine _ => .format
  | .invalidChecksum _ => .integrity

/-- A package's on-disk tree: the directories directly relevant to `Check`
and the files, each relative path mapped to its content. -/
structure PackageTree where
  dirs : List String
  files : List (String × String)
deriving DecidableEq, Repr

/-- First file registered under a relative path, if any. -/
def lookupFile : List (String × String) → String → Option String
  | [], _ => none
  | (p, c) :: rest, path => if p = path then some c else lookupFile rest path

/-- Hexadecimal digit characters, as a checksum digest is written. -/
def isHexDigit (c : Char) : Bool :=
  c.isDigit || ('a' ≤ c && c ≤ 'f') || ('A' ≤ c && c ≤ 'F')

/-- `takeWhile` on a string's characters. -/
def strTakeWhile (p : Char → Bool) (s : String) : String := ⟨s.data.takeWhile p⟩

/-- `dropWhile` on a string's characters. -/
def strDropWhile (p : Char → Bool) (s : String) : String := ⟨s.data.dropWhile p⟩

/-- Modelled from the spec: one checksum registry line
`"<hex-digest><2+ spaces><relative-path>"`; a malformed field count or a
non-hexadecimal digest rejects the line with a FormatError. -/
def parseChecksumLine (line : String) : Except CheckError (String × String) :=
  let digest := strTakeWhile (fun c => c ≠ ' ') line
  let rest := strDropWhile (fun c => c ≠ ' ') line
  let sep := strTakeWhile (fun c => c = ' ') rest
  let path := strDropWhile (fun c => c = ' ') rest
  if digest.data = [] then .error (.invalidChecksumLine line)
  else if ¬ digest.data.all isHexDigit then .error (.invalidChecksumLine line)
  else if sep.data.length < 2 then .error (.invalidChecksumLine line)
  else if path.data = [] then .error (.invalidChecksumLine line)
  else .ok (digest, path)

/-- Split a character list at newline characters. -/
def splitOnNl : List Char → List (List Char)
  | [] => [[]]
  | c :: cs =>
    if c = '\n' then [] :: splitOnNl cs
    else
      match splitOnNl cs with
      | [] => [[c]]
      | l :: ls => (c :: l) :: ls

/-- Modelled from the spec: parse the whole checksum registry — one entry
per nonempty line, every line must parse, and the first malformed line
rejects the entire file. -/
def parseChecksumLines : List String → Except CheckError (List (String × String))
  | [] => .ok []
  | l :: rest =>
    match parseChecksumLine l with
    | .error e => .error e
    | .ok entry =>
      match parseChecksumLines rest with
      | .error e => .error e
      | .ok entries => .ok (entry :: entries)

/-- Modelled from the spec: parse the checksum registry text into its
ordered sequence of `(digest, path)` entries. -/
def parseChecksumFile (text : String) : Except CheckError (List (String × String)) :=
  parseChecksumLines (((splitOnNl text.data).filter (fun l => l ≠ [])).map
    (fun l => (⟨l⟩ : String)))

/-- Modelled from the spec: `Verify` — for each entry in order, the
referenced file must exist and its live digest must equal the registered
one; the first missing-or-mismatched entry fails with the integrity error
`ErrInvalidChecksum`, the same error kind for both cases. -/
def verifyChecksums (hashFn : String → String) (files : List (String × String)) :
    List (String × String) → Except CheckError Unit
  | [] => .ok ()
  | (digest, path) :: rest =>
    match lookupFile files path with
    | none => .error (.invalidChecksum path)
    | some content =>
      if hashFn content = digest then verifyChecksums hashFn files rest
      else .error (.invalidChecksum path)

/-- Whether an entry would fail verification against `files`: its file is
missing, or the file's live digest differs from the registered one. -/
def entryBad (hashFn : String → String) (files : List (String × String))
    (entry : String × String) : Bool :=
  match lookupFile files entry.2 with
  | none => true
  | some content => hashFn content != entry.1

/-- Modelled from the spec: `Check(packageRoot)` — fail with
`PackageDirNotFoundError` naming `"pkg"` and the root when `pkg/` is
missing; succeed when `checksum.txt` is absent; otherwise parse the
registry and verify it against the tree. The digest algorithm is a fixed
subsystem-wide constant not visible in the available source, so it is
threaded as the explicit capability `hashFn`. -/
def Check (hashFn : String → String) (pkg : PackageTree) (packagePath : String) :
    Except CheckError Unit :=
  if pkg.dirs.contains "pkg" then
    match lookupFile pkg.files "checksum.txt" with
    | none => .ok ()
    | some text =>
      match parseChecksumFile text with
      | .error e => .error e
      | .ok entries => verifyChecksums hashFn pkg.files entries
  else .error (.packageDirNotFound "pkg" packagePath)

/-! ## Supporting lemmas -/

theorem digitChar_toNat {n : Nat} (h : n < 10) : (digitChar n).toNat = 48 + n := by
  interval_cases n <;> rfl

theorem digitChar_isDigit {n : Nat} (h : n < 10) : (digitChar n).isDigit = true := by
  interval_cases n <;> decide

theorem natToDecRev_ne_nil (n : Nat) : natToDecRev n ≠ [] := by
  rw [natToDecRev]
  split <;> simp

theorem natToDecRev_isDigit (n : Nat) : ∀ c ∈ natToDecRev n, c.isDigit = true := by
  induction n using Nat.strong_induction_on with
  | _ n ih =>
    rw [natToDecRev]
    split
    · next h =>
      intro c hc
      rw [List.mem_singleton.mp hc]
      exact digitChar_isDigit h
    · next h =>
      intro c hc
      rcases List.mem_cons.mp hc with hc | hc
      · rw [hc]; exact digitChar_isDigit (Nat.mod_lt n (by omega))
      · exact ih (n / 10) (Nat.div_lt_self (by omega) (by omega)) c hc

theorem foldr_natToDecRev (n : Nat) :
    (natToDecRev n).foldr (fun c acc => 10 * acc + (c.toNat - 48)) 0 = n := by
  induction n using Nat.strong_induction_on with
  | _ n ih =>
    rw [natToDecRev]
    split
    · next h =>
      simp only [List.foldr_cons, List.foldr_nil, digitChar_toNat h]
      omega
    · next h =>
      rw [List.foldr_cons, ih (n / 10) (Nat.div_lt_self (by omega) (by omega)),
        digitChar_toNat (Nat.mod_lt n (by omega))]
      omega

theorem decValM_reverse (l : List Char) :
    decValM l.reverse = l.foldr (fun c acc => 10 * acc + (c.toNat - 48)) 0 := by
  simp [decValM, List.foldl_reverse]

theorem decValM_natToDecRev (n : Nat) : decValM ((natToDecRev n).reverse) = n := by
  rw [decValM_reverse, foldr_natToDecRev]

theorem spanDigitsRev_recompose (l : List Char) :
    (spanDigitsRev l).1 ++ (spanDigitsRev l).2 = l := by
  induction l with
  | nil => rfl
  | cons c cs ih =>
    simp only [spanDigitsRev]
    split
    · simpa using ih
    · rfl

theorem spanDigitsRev_digits (l : List Char) :
    ∀ c ∈ (spanDigitsRev l).1, c.isDigit = true := by
  induction l with
  | nil => simp [spanDigitsRev]
  | cons c cs ih =>
    simp only [spanDigitsRev]
    split
    · next h =>
      intro x hx
      rcases List.mem_cons.mp hx with hx | hx
      · rw [hx]; exact h
      · exact ih x hx
    · simp

theorem spanDigitsRev_of_digits (D R : List Char) (c : Char)
    (hD : ∀ x ∈ D, x.isDigit = true) (hc : c.isDigit = false) :
    spanDigitsRev (D ++ c :: R) = (D, c :: R) := by
  induction D with
  | nil => simp [spanDigitsRev, hc]
  | cons d D ih =>
    have hd : d.isDigit = true := hD d (by simp)
    rw [List.cons_append]
    simp only [spanDigitsRev, hd, if_pos,
      ih (fun x hx => hD x (List.mem_cons_of_mem d hx))]

theorem isDigit_ne_sign {c : Char} (h : c.isDigit = true) : c ≠ '+' ∧ c ≠ '-' := by
  constructor <;> rintro rfl <;> exact absurd h (by decide)

theorem parseInt64_digits (l : List Char) (h1 : l ≠ [])
    (h2 : ∀ c ∈ l, c.isDigit = true) :
    parseInt64 ⟨l⟩ =
      if decValM l ≤ maxInt64 then some ((decValM l : Nat) : Int) else none := by
  match l, h1 with
  | c :: cs, _ =>
    have hc := h2 c (List.mem_cons_self c cs)
    have hs := isDigit_ne_sign hc
    simp only [parseInt64]
    rw [if_neg hs.1, if_neg hs.2, parseInt64Core,
      if_neg (by simp : ¬(c :: cs = [])), if_pos (List.all_eq_true.mpr h2)]
    simp

theorem sha1Bytes_ne_nil (msg : List Nat) : sha1Bytes msg ≠ [] := by
  simp [sha1Bytes, word32ToBytes]

theorem sha1hex_ne_empty (s : String) : sha1hex s ≠ "" := by
  rcases he : sha1Bytes (strBytes s) with _ | ⟨b, rest⟩
  · exact absurd he (sha1Bytes_ne_nil _)
  · intro h
    have hd := congrArg String.data h
    rw [sha1hex, he] at hd
    simp [hexEncode] at hd

theorem backupIdString_set_id (b : Backup) (x : String) :
    backupIdString { b with id := x } = backupIdString b := rfl

theorem Backup_Id_fst_of_reachable (b : Backup) (h : b.reachable) :
    (Backup.Id b).1 = sha1hex (backupIdString b) := by
  rcases h with h | h
  · simp [Backup.Id, h]
  · by_cases he : b.id = ""
    · simp [Backup.Id, he]
    · simp only [Backup.Id, if_neg he]
      exact h

/-! ## Claims about Backup.Id -/

/-- Claim C2: for every Backup value, calling `Id()` twice returns the
identical string both times, and any two reachable Backup values with
identical `(InstanceId, Timestamp, Version, Commit)` — even with different
`Url` fields — yield identical Id strings: `Id` is a pure, deterministic
function of those four fields only. -/
theorem backup_id_deterministic :
    (∀ b : Backup, ((b.Id.2).Id).1 = b.Id.1) ∧
    (∀ b b' : Backup, b.reachable → b'.reachable →
      b.InstanceId = b'.InstanceId → b.Timestamp = b'.Timestamp →
      b.Version = b'.Version → b.Commit = b'.Commit → b.Id.1 = b'.Id.1) := by
  constructor
  · intro b
    by_cases h : b.id = ""
    · simp [Backup.Id, h, sha1hex_ne_empty, backupIdString_set_id]
    · simp [Backup.Id, h]
  · intro b b' hb hb' h1 h2 h3 h4
    rw [Backup_Id_fst_of_reachable b hb, Backup_Id_fst_of_reachable b' hb']
    have hfields : backupIdString b = backupIdString b' := by
      rw [backupIdString, backupIdString, h1, h2, h3, h4]
    rw [hfields]

/-- Witness for C2 at concrete Backup values differing only in `Url`. -/
theorem backup_id_deterministic_witness :
    (Backup.Id { id := "", InstanceId := "mock-avs-v0.1.0", Timestamp := 1700000000,
                 Version := "v0.1.0", Commit := "d1b4f2a", Url := "https://a.example" }).1 =
    (Backup.Id { id := "", InstanceId := "mock-avs-v0.1.0", Timestamp := 1700000000,
                 Version := "v0.1.0", Commit := "d1b4f2a", Url := "https://b.example" }).1 :=
  backup_id_deterministic.2 _ _ (Or.inl rfl) (Or.inl rfl) rfl rfl rfl rfl

/-- Claim C10: once `Id()` has been called, every later `Id()` call returns
the originally cached digest unchanged, even if `InstanceId`, `Timestamp`,
`Version` or `Commit` are modified in between; the cached value is never
recomputed from the mutated fields. -/
theorem backup_id_cached_after_first_call (b : Backup) (i : String) (t : Int)
    (v c : String) :
    (Backup.Id { (Backup.Id b).2 with
      InstanceId := i,
      Timestamp := t,
      Version := v,
      Commit := c }).1 = (Backup.Id b).1 := by
  by_cases h : b.id = ""
  · simp [Backup.Id, h, sha1hex_ne_empty]
  · simp [Backup.Id, h]

/-! ## Claims about ParseBackupName -/

instance {ε α : Type} [DecidableEq ε] [DecidableEq α] : DecidableEq (Except ε α)
  | .ok x, .ok y =>
    if h : x = y then .isTrue (by rw [h]) else .isFalse (fun hh => h (Except.ok.inj hh))
  | .error x, .error y =>
    if h : x = y then .isTrue (by rw [h]) else .isFalse (fun hh => h (Except.error.inj hh))
  | .ok _, .error _ => .isFalse (fun hh => Except.noConfusion hh)
  | .error _, .ok _ => .isFalse (fun hh => Except.noConfusion hh)

theorem dash_data : ("-" : String).data = ['-'] := rfl

theorem tar_data : (".tar" : String).data = ['.', 't', 'a', 'r'] := rfl

theorem formatBackupName_data (instanceId : String) (t : Nat) :
    (formatBackupName instanceId t).data =
      instanceId.data ++ '-' :: ((natToDecRev t).reverse ++ ['.', 't', 'a', 'r']) := by
  simp [formatBackupName, natToDec, String.data_append, dash_data, tar_data]

/-- Evaluation of `ParseBackupName` on any string of the decomposed shape
`<prefix>-<digits>.tar` where `D` holds the digits least-significant
first, the prefix holds no newline, and the digit run is nonempty. -/
theorem ParseBackupName_decomp (name : String) (P D : List Char)
    (hname : name.data = P ++ '-' :: (D.reverse ++ ['.', 't', 'a', 'r']))
    (hD : ∀ c ∈ D, c.isDigit = true) (hDne : D ≠ []) (hP : '\n' ∉ P) :
    ParseBackupName name =
      if decValM D.reverse ≤ maxInt64
      then .ok (⟨P⟩, (decValM D.reverse : Int))
      else .error (.invalidBackupName name) := by
  have hr : name.data.reverse = 'r' :: 'a' :: 't' :: '.' :: (D ++ '-' :: P.reverse) := by
    rw [hname]
    simp
  have htake : ('r' :: 'a' :: 't' :: '.' :: (D ++ '-' :: P.reverse)).take 4 =
      ['r', 'a', 't', '.'] := rfl
  have hdrop : ('r' :: 'a' :: 't' :: '.' :: (D ++ '-' :: P.reverse)).drop 4 =
      D ++ '-' :: P.reverse := rfl
  have hspan : spanDigitsRev (D ++ '-' :: P.reverse) = (D, '-' :: P.reverse) :=
    spanDigitsRev_of_digits D P.reverse '-' hD (by decide)
  have hcontains : (P.reverse).contains '\n' = false := by
    simp only [List.contains_eq_any_beq, List.any_eq_false, beq_iff_eq]
    intro x hx h
    exact hP (by rw [h]; exact List.mem_reverse.mp hx)
  have hpi := parseInt64_digits D.reverse (by simpa using hDne)
    (fun c hc => hD c (List.mem_reverse.mp hc))
  simp only [ParseBackupName, hr, htake, hdrop, hspan, hcontains, hpi]
  by_cases hle : decValM D.reverse ≤ maxInt64
  · simp [hDne, hle]
  · simp [hDne, hle]

/-- Claim C3 (amended): for every instanceId containing no newline character
and every non-negative 64-bit timestamp `t`, formatting
`"<instanceId>-<t>.tar"` and parsing it back recovers exactly
`(instanceId, t)`; in particular `"myavs-node-1700000000.tar"` parses to
`("myavs-node", 1700000000)`. (Go's `.` in the name pattern matches any
character except a newline, so instanceIds with hyphens survive, but ones
with a newline do not match at all.) -/
theorem parseBackupName_roundtrip :
    (∀ (instanceId : String) (t : Nat), '\n' ∉ instanceId.data → t < 2 ^ 63 →
      ParseBackupName (formatBackupName instanceId t) = .ok (instanceId, (t : Int))) ∧
    ParseBackupName "myavs-node-1700000000.tar" = .ok ("myavs-node", 1700000000) := by
  constructor
  · intro instanceId t hnl ht
    rw [ParseBackupName_decomp (formatBackupName instanceId t) instanceId.data
      (natToDecRev t) (formatBackupName_data instanceId t) (natToDecRev_isDigit t)
      (natToDecRev_ne_nil t) hnl]
    rw [decValM_natToDecRev]
    rw [if_pos (by simp only [maxInt64]; omega)]
  · decide

/-- Witness for C3: the amended round trip at a concrete hyphenated
instanceId and timestamp. -/
theorem parseBackupName_roundtrip_witness :
    ParseBackupName (formatBackupName "myavs-node" 1700000000) =
      .ok ("myavs-node", (1700000000 : Int)) :=
  parseBackupName_roundtrip.1 "myavs-node" 1700000000 (by decide) (by norm_num)

/-- Counterexample for C3 as stated: for the instanceId `"a\nb"` (legal in
the claim's universal quantification over every instanceId) and timestamp
`5`, formatting and re-parsing does not recover the pair — the name regex
rejects the newline, so `ParseBackupName` fails instead. -/
theorem parseBackupName_roundtrip_counterexample :
    ParseBackupName (formatBackupName "a\nb" 5) ≠ .ok ("a\nb", (5 : Int)) := by
  have h5 : natToDecRev 5 = ['5'] := by rw [natToDecRev]; rfl
  have hfb : formatBackupName "a\nb" 5 = "a\nb-5.tar" := by
    rw [formatBackupName, natToDec, h5]; rfl
  rw [hfb]
  decide

/-- The shape `"<instanceId>-<digits>.tar"`: some split of the name into a
prefix, a hyphen, a nonempty run of decimal digits whose value fits an
`int64`, and the `.tar` suffix. -/
def backupNameShape (name : String) : Prop :=
  ∃ P D : List Char, name.data = P ++ '-' :: (D ++ ['.', 't', 'a', 'r']) ∧
    D ≠ [] ∧ (∀ c ∈ D, c.isDigit = true) ∧ decValM D ≤ maxInt64

/-- Claim C9: every name that does not match the shape
`"<instanceId>-<digits>.tar"` — wrong extension, no hyphen-delimited digit
run before `.tar`, or a digit run that is not a valid non-negative 64-bit
integer — makes `ParseBackupName` fail with the FormatError
`ErrInvalidBackupName`; in particular `"invalid.tar"` fails so. -/
theorem parseBackupName_rejects_nonmatching :
    (∀ name : String, backupNameShape name ∨
      ParseBackupName name = .error (.invalidBackupName name)) ∧
    ParseBackupName "invalid.tar" = .error (.invalidBackupName "invalid.tar") := by
  constructor
  · intro name
    by_cases h4 : name.data.reverse.take 4 = ['r', 'a', 't', '.']
    case neg => right; simp [ParseBackupName, h4]
    case pos =>
      rcases hspan : spanDigitsRev (name.data.reverse.drop 4) with ⟨ds, tail⟩
      have hrec := spanDigitsRev_recompose (name.data.reverse.drop 4)
      have hdig := spanDigitsRev_digits (name.data.reverse.drop 4)
      rw [hspan] at hrec hdig
      rcases tail with _ | ⟨c, ras⟩
      · right; simp [ParseBackupName, h4, hspan]
      · by_cases hds : ds = []
        · right; simp [ParseBackupName, h4, hspan, hds]
        · by_cases hc : c = '-'
          · subst hc
            by_cases hnl : ras.contains '\n'
            · right
              have hmem : '\n' ∈ ras := by
                simp only [List.contains_eq_any_beq, List.any_eq_true,
                  beq_iff_eq] at hnl
                rcases hnl with ⟨x, hx, hxe⟩
                rwa [hxe]
              simp [ParseBackupName, h4, hspan, hds]
              intro h
              exact absurd hmem h
            · have hpi := parseInt64_digits ds.reverse (by simpa using hds)
                (fun x hx => hdig x (List.mem_reverse.mp hx))
              by_cases hle : decValM ds.reverse ≤ maxInt64
              · left
                refine ⟨ras.reverse, ds.reverse, ?_, by simpa using hds,
                  fun x hx => hdig x (List.mem_reverse.mp hx), hle⟩
                have hsplit := List.take_append_drop 4 name.data.reverse
                rw [h4, ← hrec] at hsplit
                have := congrArg List.reverse hsplit
                rw [List.reverse_reverse] at this
                rw [← this]
                simp
              · right
                rw [if_neg hle] at hpi
                simp [ParseBackupName, h4, hspan, hds, hnl, hpi]
          · right; simp [ParseBackupName, h4, hspan, hds, hc]
  · decide

/-! ## Claims about BackupFromTar -/

/-- Claim C6: `BackupFromTar` performs its prechecks in order — for every
path that does not resolve to an existing file it fails with the NotExist
condition regardless of the decoder, and for every existing path whose
extension is not `.tar` it fails with the FormatError `ErrInvalidBackupName`
regardless of the archive's content or the decoder, i.e. before any archive
parsing. -/
theorem backupFromTar_prechecks (decodeInstance : String → Option Instance)
    (fs : Storage) (src : String) :
    (fs src = none →
      BackupFromTar decodeInstance fs src = .error (.notExist src)) ∧
    (∀ tarFile : TarArchive, fs src = some tarFile → pathExt src ≠ ".tar" →
      BackupFromTar decodeInstance fs src = .error (.invalidBackupName src)) := by
  constructor
  · intro h
    simp [BackupFromTar, h]
  · intro tarFile h hext
    simp [BackupFromTar, h, hext]

/-- Witness for C6: a missing path gives NotExist, and an existing path with
a `.txt` extension gives the FormatError, whatever the archive holds. -/
theorem backupFromTar_prechecks_witness :
    BackupFromTar (fun _ => none) (fun _ => none) "backup.tar" =
      .error (.notExist "backup.tar") ∧
    BackupFromTar (fun _ => none) (fun _ => some [("timestamp", "1")]) "backup.txt" =
      .error (.invalidBackupName "backup.txt") :=
  ⟨(backupFromTar_prechecks (fun _ => none) (fun _ => none) "backup.tar").1 rfl,
   (backupFromTar_prechecks (fun _ => none) (fun _ => some [("timestamp", "1")])
      "backup.txt").2 [("timestamp", "1")] rfl (by decide)⟩

/-- Claim C7 (amended): for every `.tar` archive whose `data/state.json`
entry decodes into an Instance and whose `timestamp` entry exists but does
not parse as a decimal integer, `BackupFromTar` fails with a FormatError
(the propagated `strconv` parse failure). -/
theorem backupFromTar_bad_timestamp (decodeInstance : String → Option Instance)
    (fs : Storage) (src : String) (tarFile : TarArchive) (stateData : String)
    (inst : Instance) (tsData : String)
    (hfs : fs src = some tarFile) (hext : pathExt src = ".tar")
    (hstate : tarReadFile "data/state.json" tarFile = .ok stateData)
    (hdec : decodeInstance stateData = some inst)
    (hts : tarReadFile "timestamp" tarFile = .ok tsData)
    (hpi : parseInt64 tsData = none) :
    BackupFromTar decodeInstance fs src = .error (.timestampNotInt tsData) ∧
    (DataError.timestampNotInt tsData).kind = .format := by
  refine ⟨?_, rfl⟩
  simp [BackupFromTar, hfs, hext, hstate, hdec, hts, hpi]

/-- Witness for C7 at a concrete archive whose timestamp entry is not a
decimal integer. -/
theorem backupFromTar_bad_timestamp_witness :
    BackupFromTar
      (fun _ => some { Name := "mock-avs", Tag := "v1", Version := "v1",
                       Commit := "c0ffee", URL := "https://repo" })
      (fun p => if p = "b.tar"
        then some [("data/state.json", "sj"), ("timestamp", "not-a-number")]
        else none)
      "b.tar" = .error (.timestampNotInt "not-a-number") ∧
    (DataError.timestampNotInt "not-a-number").kind = .format :=
  backupFromTar_bad_timestamp
    (fun _ => some { Name := "mock-avs", Tag := "v1", Version := "v1",
                     Commit := "c0ffee", URL := "https://repo" })
    (fun p => if p = "b.tar"
      then some [("data/state.json", "sj"), ("timestamp", "not-a-number")]
      else none)
    "b.tar" [("data/state.json", "sj"), ("timestamp", "not-a-number")] "sj"
    { Name := "mock-avs", Tag := "v1", Version := "v1",
      Commit := "c0ffee", URL := "https://repo" } "not-a-number"
    (by decide) (by decide) (by decide) rfl (by decide) (by decide)

/-- Counterexample for C7 as stated: an archive whose `timestamp` entry
exists with non-integer content but which lacks `data/state.json` makes
`BackupFromTar` fail with the tar accessor's NotFound condition on
`data/state.json` — a structural error, not a FormatError. -/
theorem backupFromTar_bad_timestamp_counterexample :
    BackupFromTar (fun _ => none)
      (fun p => if p = "b.tar" then some [("timestamp", "not-a-number")] else none)
      "b.tar" = .error (.tarEntryNotFound "data/state.json") ∧
    (DataError.tarEntryNotFound "data/state.json").kind ≠ .format := by
  constructor
  · decide
  · decide

/-- Claim C8: for every archive from which `data/state.json` decodes into an
Instance and the `timestamp` entry parses as a Unix-seconds integer,
`BackupFromTar` returns a Backup whose `InstanceId` is the Instance's
derived ID, whose `Version`, `Commit` and `Url` are copied verbatim from
the Instance, and whose `Timestamp` is the parsed timestamp value. -/
theorem backupFromTar_success (decodeInstance : String → Option Instance)
    (fs : Storage) (src : String) (tarFile : TarArchive) (stateData : String)
    (inst : Instance) (tsData : String) (ts : Int)
    (hfs : fs src = some tarFile) (hext : pathExt src = ".tar")
    (hstate : tarReadFile "data/state.json" tarFile = .ok stateData)
    (hdec : decodeInstance stateData = some inst)
    (hts : tarReadFile "timestamp" tarFile = .ok tsData)
    (hpi : parseInt64 tsData = some ts) :
    BackupFromTar decodeInstance fs src =
      .ok { id := "", InstanceId := inst.ID, Timestamp := ts,
            Version := inst.Version, Commit := inst.Commit, Url := inst.URL } := by
  simp [BackupFromTar, hfs, hext, hstate, hdec, hts, hpi]

/-- Witness for C8 at a concrete archive and decoder. -/
theorem backupFromTar_success_witness :
    BackupFromTar
      (fun _ => some { Name := "mock-avs", Tag := "v1", Version := "v1.0.0",
                       Commit := "c0ffee", URL := "https://repo" })
      (fun p => if p = "b.tar"
        then some [("data/state.json", "sj"), ("timestamp", "1700000000")]
        else none)
      "b.tar" =
      .ok { id := "", InstanceId := "mock-avs-v1", Timestamp := 1700000000,
            Version := "v1.0.0", Commit := "c0ffee", Url := "https://repo" } :=
  backupFromTar_success
    (fun _ => some { Name := "mock-avs", Tag := "v1", Version := "v1.0.0",
                     Commit := "c0ffee", URL := "https://repo" })
    (fun p => if p = "b.tar"
      then some [("data/state.json", "sj"), ("timestamp", "1700000000")]
      else none)
    "b.tar" [("data/state.json", "sj"), ("timestamp", "1700000000")] "sj"
    { Name := "mock-avs", Tag := "v1", Version := "v1.0.0",
      Commit := "c0ffee", URL := "https://repo" } "1700000000" 1700000000
    (by decide) (by decide) (by decide) rfl (by decide) (by decide)

/-! ## Claims about Check -/

theorem verifyChecksums_error_of_bad (hashFn : String → String)
    (files : List (String × String)) (entries : List (String × String))
    (hbad : entries.any (entryBad hashFn files) = true) :
    ∃ p, verifyChecksums hashFn files entries = .error (.invalidChecksum p) := by
  induction entries with
  | nil => simp at hbad
  | cons e rest ih =>
    rcases e with ⟨digest, path⟩
    rcases hl : lookupFile files path with _ | content
    · exact ⟨path, by simp [verifyChecksums, hl]⟩
    · by_cases hh : hashFn content = digest
      · have hrest : rest.any (entryBad hashFn files) = true := by
          rcases List.any_eq_true.mp hbad with ⟨x, hx, hxbad⟩
          rcases List.mem_cons.mp hx with hx | hx
          · rw [hx] at hxbad
            rw [entryBad, hl] at hxbad
            simp [hh] at hxbad
          · exact List.any_eq_true.mpr ⟨x, hx, hxbad⟩
        rcases ih hrest with ⟨p, hp⟩
        exact ⟨p, by simp [verifyChecksums, hl, hh, hp]⟩
      · exact ⟨path, by simp [verifyChecksums, hl, hh]⟩

/-- Claim C1: for every package whose checksum registry lists a file that is
missing or whose content was altered after packaging, `Check` fails with
the IntegrityError `ErrInvalidChecksum`; the missing-file case and the
content-mismatch case are reported under that same error constructor (as
`verifyChecksums` shows, both failure branches produce `.invalidChecksum`). -/
theorem check_integrity_error (hashFn : String → String) (pkg : PackageTree)
    (packagePath : String) (text : String) (entries : List (String × String))
    (hdir : "pkg" ∈ pkg.dirs)
    (hcs : lookupFile pkg.files "checksum.txt" = some text)
    (hparse : parseChecksumFile text = .ok entries)
    (hbad : entries.any (entryBad hashFn pkg.files) = true) :
    ∃ p, Check hashFn pkg packagePath = .error (.invalidChecksum p) := by
  rcases verifyChecksums_error_of_bad hashFn pkg.files entries hbad with ⟨p, hp⟩
  exact ⟨p, by simp [Check, hdir, hcs, hparse, hp]⟩

/-- Witness for C1: a concrete package whose registry lists a missing file. -/
theorem check_integrity_error_witness :
    ∃ p, Check (fun _ => "ab")
      { dirs := ["pkg"], files := [("checksum.txt", "ab  pkg/manifest.yml")] }
      "/tmp/pkg" = .error (.invalidChecksum p) :=
  check_integrity_error (fun _ => "ab")
    { dirs := ["pkg"], files := [("checksum.txt", "ab  pkg/manifest.yml")] }
    "/tmp/pkg" "ab  pkg/manifest.yml" [("ab", "pkg/manifest.yml")]
    (by decide) (by decide) (by decide) (by decide)

/-- Claim C4: for every package root under which no `pkg/` directory
exists, `Check` fails with the StructuralError `PackageDirNotFoundError`
identifying the missing relative path `"pkg"` and the package root. -/
theorem check_missing_pkg_dir (hashFn : String → String) (pkg : PackageTree)
    (packagePath : String) (hdir : "pkg" ∉ pkg.dirs) :
    Check hashFn pkg packagePath = .error (.packageDirNotFound "pkg" packagePath) := by
  simp [Check, hdir]

/-- Witness for C4 at a concrete empty package tree. -/
theorem check_missing_pkg_dir_witness :
    Check (fun _ => "") { dirs := [], files := [] } "/data/pkg-root" =
      .error (.packageDirNotFound "pkg" "/data/pkg-root") :=
  check_missing_pkg_dir (fun _ => "") { dirs := [], files := [] }
    "/data/pkg-root" (by decide)

/-- Claim C5: for every package that contains `pkg/` but has no
`checksum.txt` registry file, `Check` returns success, whatever else the
tree holds — integrity verification is skipped and the package is not
rejected for lacking a registry. -/
theorem check_no_checksum_file (hashFn : String → String) (pkg : PackageTree)
    (packagePath : String) (hdir : "pkg" ∈ pkg.dirs)
    (hcs : lookupFile pkg.files "checksum.txt" = none) :
    Check hashFn pkg packagePath = .ok () := by
  simp [Check, hdir, hcs]

/-- Witness for C5 at a concrete package with `pkg/` and no registry. -/
theorem check_no_checksum_file_witness :
    Check (fun _ => "") { dirs := ["pkg"], files := [("pkg/manifest.yml", "m")] }
      "/data/pkg-root" = .ok () :=
  check_no_checksum_file (fun _ => "")
    { dirs := ["pkg"], files := [("pkg/manifest.yml", "m")] }
    "/data/pkg-root" (by decide) (by decide)

end EigenData
